import Mathlib

/-!
Verification of the Vakthund IDPS core against its specification.

This file gives a shallow embedding, in Lean 4, of the parts of the Vakthund
repository that the examined claims talk about:

* `vakthund-core/src/time/mod.rs`        — the virtual clock (`VirtualClock`);
* `vakthund-core/src/events/network.rs`  — the event value type (`NetworkEvent`);
* `vakthund-core/src/events/bus.rs`      — the SPSC ring event bus (`EventBus`);
* `vakthund-protocols/src/mqtt.rs`       — the MQTT parser;
* `vakthund-protocols/src/modbus.rs`     — the Modbus parser;
* `vakthund-detection/src/signatures/mod.rs` — the signature engine;
* `vakthund-config/src/simulator.rs`     — fuzz-configuration generation;
* `vakthund-simulator/src/replay.rs`     — scenario save/load;
* `vakthund-simulator/src/lib.rs`        — the simulator event loop.

Machine integers (`u64`, `u32`, `u16`, `u8`, `usize`) are modelled as `Nat`
with explicit reduction modulo `2 ^ w` exactly where the Rust code can wrap
(release-profile wrapping semantics).  Byte buffers are `List Nat`.  A Rust
panic reachable from safe code is modelled as the `none` arm of an `Option`
result.  External randomness (the `rand` crate) is modelled by explicit draw
streams: each RNG becomes a function `Nat → Nat` together with a cursor, and
a range draw `random_range(lo..hi)` consumes one stream element and returns
a value in the requested range.  This makes the embedding executable while
keeping the source's control flow intact.
-/

/-- Modulus of Rust `u64` arithmetic. -/
def u64Mod : Nat := 2 ^ 64

/-- Modulus of Rust `u32` arithmetic. -/
def u32Mod : Nat := 2 ^ 32

/-- Bytes of a Rust string literal (UTF-8 irrelevant here: all used literals are ASCII). -/
def strBytes (s : String) : List Nat := s.data.map Char.toNat

/-! ## Events — `vakthund-core/src/events/network.rs` -/

/-- Protocol-agnostic network event with metadata, from `events/network.rs`.
`payload` is the byte content of the `Bytes` buffer; socket addresses are
modelled as (ip, port) pairs. -/
structure NetworkEvent where
  timestamp : Nat
  payload : List Nat
  source : Option (Nat × Nat)
  destination : Option (Nat × Nat)
deriving DecidableEq, Repr

/-- Constructor `NetworkEvent::new(timestamp, payload)`: optional endpoints absent. -/
def NetworkEvent.new (timestamp : Nat) (payload : List Nat) : NetworkEvent :=
  { timestamp := timestamp, payload := payload, source := none, destination := none }

/-! ## Virtual clock — `vakthund-core/src/time/mod.rs` -/

/-- The virtual clock: an atomic `u64` nanosecond offset.  From `time/mod.rs`. -/
structure VirtualClock where
  offset : Nat
deriving DecidableEq, Repr

/-- Constructor `VirtualClock::new(seed)`: the counter starts at the seed. -/
def VirtualClock.new (seed : Nat) : VirtualClock := ⟨seed⟩

/-- Accessor `now_ns()`: loads the counter. -/
def VirtualClock.now_ns (c : VirtualClock) : Nat := c.offset

/-- Mutator `advance(ns)`: `fetch_add` on a `u64`, hence wrapping mod `2 ^ 64`. -/
def VirtualClock.advance (c : VirtualClock) (ns : Nat) : VirtualClock :=
  ⟨(c.offset + ns) % u64Mod⟩

/-- Runs a finite sequence of `advance` calls, left to right. -/
def VirtualClock.advanceAll (c : VirtualClock) (ds : List Nat) : VirtualClock :=
  ds.foldl VirtualClock.advance c

theorem VirtualClock.advanceAll_offset (ds : List Nat) :
    ∀ c : VirtualClock, c.offset < u64Mod →
      (c.advanceAll ds).offset = (c.offset + ds.sum) % u64Mod := by
  induction ds with
  | nil =>
      intro c hc
      simpa [VirtualClock.advanceAll] using (Nat.mod_eq_of_lt hc).symm
  | cons d ds ih =>
      intro c hc
      have hlt : ((c.offset + d) % u64Mod) < u64Mod :=
        Nat.mod_lt _ (by decide)
      have := ih ⟨(c.offset + d) % u64Mod⟩ hlt
      simp only [VirtualClock.advanceAll, List.foldl_cons, VirtualClock.advance] at this ⊢
      rw [this]
      simp [Nat.mod_add_mod, Nat.add_assoc, List.sum_cons]

/-- Claim C9: for every seed and sequence of advances, `now_ns` afterwards equals
the seed plus the sum of the deltas in `u64` arithmetic; and one `advance(d)`
step observed without `u64` overflow increases `now_ns` by exactly `d`, hence
the clock is monotonic non-decreasing. -/
theorem virtual_clock_sums_advances (seed : Nat) (ds : List Nat)
    (hseed : seed < u64Mod) :
    ((VirtualClock.new seed).advanceAll ds).now_ns = (seed + ds.sum) % u64Mod ∧
    (∀ (c : VirtualClock) (d : Nat), c.offset + d < u64Mod →
      c.now_ns ≤ (c.advance d).now_ns ∧ (c.advance d).now_ns = c.now_ns + d) := by
  constructor
  · simpa [VirtualClock.now_ns, VirtualClock.new] using
      VirtualClock.advanceAll_offset ds (VirtualClock.new seed) hseed
  · intro c d hov
    have h : (c.offset + d) % u64Mod = c.offset + d := Nat.mod_eq_of_lt hov
    constructor
    · simp [VirtualClock.now_ns, VirtualClock.advance, h]
    · simp [VirtualClock.now_ns, VirtualClock.advance, h]

/-- Witness for C9 at a concrete seed and advance list. -/
theorem virtual_clock_sums_advances_witness :
    ((VirtualClock.new 42).advanceAll [5, 7]).now_ns = (42 + [5, 7].sum) % u64Mod ∧
    (VirtualClock.new 42).now_ns ≤ ((VirtualClock.new 42).advance 5).now_ns := by
  have h := virtual_clock_sums_advances 42 [5, 7] (by decide)
  exact ⟨h.1, (h.2 (VirtualClock.new 42) 5 (by decide)).1⟩

/-! ## Event bus — `vakthund-core/src/events/bus.rs` -/

/-- Event bus error conditions, from `bus.rs`. -/
inductive EventError where
  | QueueFull
  | InvalidCapacity
deriving DecidableEq, Repr

/-- Wrapping `u64` subtraction (Rust release semantics of `head - tail`);
both arguments are `u64` values, i.e. below `2 ^ 64`. -/
def u64Sub (a b : Nat) : Nat := (a + u64Mod - b) % u64Mod

/-- The SPSC ring bus state (`InnerBus`): a fixed slot array of optional
events plus the two monotone `u64` counters and the index mask. -/
structure EventBus where
  buffer : List (Option NetworkEvent)
  head : Nat
  tail : Nat
  mask : Nat
deriving DecidableEq, Repr

/-- Rust `usize::is_power_of_two` (exactly one set bit). -/
def isPowerOfTwo (n : Nat) : Bool := n != 0 && (n &&& (n - 1)) == 0

/-- Constructor `EventBus::with_capacity`: rejects capacities that are not a
power of two, otherwise allocates `capacity` empty slots with both counters
zero and `mask = capacity - 1`. -/
def EventBus.with_capacity (capacity : Nat) : Except EventError EventBus :=
  if ! isPowerOfTwo capacity then
    Except.error EventError.InvalidCapacity
  else
    Except.ok
      { buffer := List.replicate capacity none
        head := 0
        tail := 0
        mask := capacity - 1 }

/-- Method `send`: fails with `QueueFull` when `head - tail` (wrapping `u64`
subtraction) reaches the buffer length, otherwise writes the event at
`head & mask` and publishes `head + 1` (a `u64` store, hence mod `2 ^ 64`). -/
def EventBus.send (b : EventBus) (e : NetworkEvent) :
    Except EventError Unit × EventBus :=
  if b.buffer.length ≤ u64Sub b.head b.tail then
    (Except.error EventError.QueueFull, b)
  else
    (Except.ok (),
      { b with
          buffer := b.buffer.set (b.head &&& b.mask) (some e)
          head := (b.head + 1) % u64Mod })

/-- Method `recv`: returns `none` when `head == tail`, otherwise takes the
slot at `tail & mask` (leaving `none` behind) and publishes `tail + 1`. -/
def EventBus.recv (b : EventBus) : Option NetworkEvent × EventBus :=
  if b.head == b.tail then
    (none, b)
  else
    (b.buffer.getD (b.tail &&& b.mask) none,
      { b with
          buffer := b.buffer.set (b.tail &&& b.mask) none
          tail := (b.tail + 1) % u64Mod })

/-- One producer/consumer action on the bus. -/
inductive BusOp where
  | push (e : NetworkEvent)
  | pop
deriving DecidableEq, Repr

/-- Runs an interleaving of `send` and `recv` calls.  Returns the final bus
state, the list of events whose `send` returned `Ok` (in call order), and the
list of events returned by `recv` with the `None` results dropped. -/
def EventBus.runOps (b : EventBus) :
    List BusOp → EventBus × List NetworkEvent × List NetworkEvent
  | [] => (b, [], [])
  | BusOp.push e :: ops =>
    match EventBus.send b e with
    | (Except.ok _, b1) =>
      let r := EventBus.runOps b1 ops
      (r.1, e :: r.2.1, r.2.2)
    | (Except.error _, b1) => EventBus.runOps b1 ops
  | BusOp.pop :: ops =>
    match EventBus.recv b with
    | (some e, b1) =>
      let r := EventBus.runOps b1 ops
      (r.1, r.2.1, e :: r.2.2)
    | (none, b1) => EventBus.runOps b1 ops

/-- Invariant tying a reachable bus state to the ghost totals `pushes` and
`pops` and to the list `prod` of all events ever accepted by `send`: the
`u64` counters are the totals mod `2 ^ 64`, at most `cap` events are in
flight, and the live window of slots holds exactly the pending events. -/
structure BusGood (cap k pushes pops : Nat) (prod : List NetworkEvent)
    (b : EventBus) : Prop where
  cap_eq : cap = 2 ^ k
  k_le : k ≤ 63
  len_eq : b.buffer.length = cap
  mask_eq : b.mask = cap - 1
  head_eq : b.head = pushes % u64Mod
  tail_eq : b.tail = pops % u64Mod
  pops_le : pops ≤ pushes
  window : pushes ≤ pops + cap
  prod_len : prod.length = pushes
  slots : ∀ i, pops ≤ i → i < pushes → b.buffer.getD (i % cap) none = prod[i]?

theorem u64Sub_counts {P Q : Nat} (h1 : Q ≤ P) (h2 : P - Q < u64Mod) :
    u64Sub (P % u64Mod) (Q % u64Mod) = P - Q := by
  unfold u64Sub u64Mod at *
  omega

theorem counts_mod_inj {P Q : Nat} (h1 : Q ≤ P) (h2 : P - Q < u64Mod)
    (h : P % u64Mod = Q % u64Mod) : P = Q := by
  unfold u64Mod at *
  omega

theorem mask_mod {P k : Nat} (hk : k ≤ 64) :
    (P % u64Mod) &&& (2 ^ k - 1) = P % 2 ^ k := by
  rw [Nat.and_pow_two_sub_one_eq_mod]
  exact Nat.mod_mod_of_dvd P (pow_dvd_pow 2 hk)

theorem window_mod_ne {cap i j : Nat} (hij : i < j)
    (hwin : j - i < cap) : i % cap ≠ j % cap := by
  intro h
  have : cap ∣ j - i := (Nat.modEq_iff_dvd' (Nat.le_of_lt hij)).mp h
  rcases this with ⟨c, hc⟩
  rcases c with _ | c
  · omega
  · have : cap ≤ cap * (c + 1) := Nat.le_mul_of_pos_right cap (Nat.succ_pos c)
    omega

theorem busGood_cap_pos {cap k P Q : Nat} {prod : List NetworkEvent}
    {b : EventBus} (hg : BusGood cap k P Q prod b) : 0 < cap := by
  rw [hg.cap_eq]; exact Nat.pos_pow_of_pos k (by decide)

theorem busGood_cap_lt {cap k P Q : Nat} {prod : List NetworkEvent}
    {b : EventBus} (hg : BusGood cap k P Q prod b) : cap < u64Mod := by
  rw [hg.cap_eq, u64Mod]
  exact Nat.pow_lt_pow_right (by decide) (Nat.lt_of_le_of_lt hg.k_le (by decide))

theorem runOps_good :
    ∀ (ops : List BusOp) (cap k P Q : Nat) (prod : List NetworkEvent)
      (b : EventBus), BusGood cap k P Q prod b →
      ∃ P2 Q2,
        BusGood cap k P2 Q2 (prod ++ (EventBus.runOps b ops).2.1)
          (EventBus.runOps b ops).1 ∧
        P ≤ P2 ∧ Q ≤ Q2 ∧
        (EventBus.runOps b ops).2.2 =
          ((prod ++ (EventBus.runOps b ops).2.1).take Q2).drop Q := by
  intro ops
  induction ops with
  | nil =>
    intro cap k P Q prod b hg
    refine ⟨P, Q, by simp only [EventBus.runOps, List.append_nil]; exact hg,
      Nat.le_refl _, Nat.le_refl _, ?_⟩
    have hlen : (List.take Q (prod ++ ([] : List NetworkEvent))).length ≤ Q := by
      rw [List.length_take]; exact Nat.min_le_left _ _
    simp [EventBus.runOps, List.drop_eq_nil_of_le hlen]
  | cons op ops ih =>
    intro cap k P Q prod b hg
    have hcpos : 0 < cap := busGood_cap_pos hg
    have hclt : cap < u64Mod := busGood_cap_lt hg
    have hwin := hg.window
    have hple := hg.pops_le
    have hsub : u64Sub b.head b.tail = P - Q := by
      rw [hg.head_eq, hg.tail_eq]
      exact u64Sub_counts hg.pops_le (by omega)
    cases op with
    | push e =>
      by_cases hfull : cap ≤ P - Q
      · have hsend : EventBus.send b e = (Except.error EventError.QueueFull, b) := by
          unfold EventBus.send
          rw [hg.len_eq, hsub, if_pos hfull]
        simp only [EventBus.runOps, hsend]
        exact ih cap k P Q prod b hg
      · have hidx : b.head &&& b.mask = P % cap := by
          rw [hg.head_eq, hg.mask_eq, hg.cap_eq]
          exact mask_mod (Nat.le_succ_of_le hg.k_le)
        have hhead1 : (b.head + 1) % u64Mod = (P + 1) % u64Mod := by
          rw [hg.head_eq]; exact Nat.mod_add_mod P u64Mod 1
        have hsend : EventBus.send b e =
            (Except.ok (),
              { b with
                  buffer := b.buffer.set (P % cap) (some e)
                  head := (P + 1) % u64Mod }) := by
          unfold EventBus.send
          rw [hg.len_eq, hsub, if_neg (by omega), hidx, hhead1]
        have hgood1 : BusGood cap k (P + 1) Q (prod ++ [e])
            { b with
                buffer := b.buffer.set (P % cap) (some e)
                head := (P + 1) % u64Mod } := by
          refine ⟨hg.cap_eq, hg.k_le, ?_, hg.mask_eq, rfl, hg.tail_eq, ?_, ?_, ?_, ?_⟩
          · rw [List.length_set]; exact hg.len_eq
          · exact Nat.le_succ_of_le hg.pops_le
          · omega
          · simp [hg.prod_len]
          · intro i hQi hiP1
            rcases Nat.lt_or_ge i P with hiP | hiP
            · have hne : i % cap ≠ P % cap :=
                window_mod_ne hiP (by omega)
              have hilen : i < prod.length := by rw [hg.prod_len]; exact hiP
              simp only [List.getD_eq_getElem?_getD]
              rw [List.getElem?_set_ne (fun h => hne h.symm),
                List.getElem?_append_left hilen]
              have := hg.slots i hQi hiP
              simpa [List.getD_eq_getElem?_getD] using this
            · have hiP' : i = P := by omega
              subst hiP'
              have hPlt : i % cap < b.buffer.length := by
                rw [hg.len_eq]; exact Nat.mod_lt _ hcpos
              simp only [List.getD_eq_getElem?_getD]
              rw [List.getElem?_set_self hPlt]
              rw [← hg.prod_len, List.getElem?_concat_length]
              rfl
        obtain ⟨P2, Q2, good2, hP2, hQ2, hcons⟩ :=
          ih cap k (P + 1) Q (prod ++ [e]) _ hgood1
        refine ⟨P2, Q2, ?_, by omega, hQ2, ?_⟩
        · simp only [EventBus.runOps, hsend]
          rw [List.append_cons]
          exact good2
        · simp only [EventBus.runOps, hsend]
          rw [List.append_cons]
          exact hcons
    | pop =>
      by_cases hempty : P = Q
      · have hrecv : EventBus.recv b = (none, b) := by
          unfold EventBus.recv
          rw [hg.head_eq, hg.tail_eq, hempty]
          simp
        simp only [EventBus.runOps, hrecv]
        exact ih cap k P Q prod b hg
      · have hQP : Q < P := Nat.lt_of_le_of_ne hg.pops_le (fun h => hempty h.symm)
        have hne : (b.head == b.tail) = false := by
          rw [hg.head_eq, hg.tail_eq]
          simp only [beq_eq_false_iff_ne, ne_eq]
          intro h
          exact hempty (counts_mod_inj hg.pops_le (by omega) h)
        have hidx : b.tail &&& b.mask = Q % cap := by
          rw [hg.tail_eq, hg.mask_eq, hg.cap_eq]
          exact mask_mod (Nat.le_succ_of_le hg.k_le)
        have htail1 : (b.tail + 1) % u64Mod = (Q + 1) % u64Mod := by
          rw [hg.tail_eq]; exact Nat.mod_add_mod Q u64Mod 1
        have hQlen : Q < prod.length := by rw [hg.prod_len]; exact hQP
        have hval : b.buffer.getD (Q % cap) none = some prod[Q] := by
          have := hg.slots Q (Nat.le_refl Q) hQP
          rw [this]
          exact List.getElem?_eq_getElem hQlen
        set b1 : EventBus :=
          { b with
              buffer := b.buffer.set (Q % cap) none
              tail := (Q + 1) % u64Mod } with hb1
        have hrecv : EventBus.recv b = (some prod[Q], b1) := by
          unfold EventBus.recv
          rw [hne, hidx, htail1, hval, hb1]
          simp
        have hgood1 : BusGood cap k P (Q + 1) prod b1 := by
          rw [hb1]
          refine ⟨hg.cap_eq, hg.k_le, ?_, hg.mask_eq, hg.head_eq, rfl, hQP, ?_, hg.prod_len, ?_⟩
          · rw [List.length_set]; exact hg.len_eq
          · omega
          · intro i hQi hiP
            have hne2 : Q % cap ≠ i % cap :=
              window_mod_ne (by omega) (by omega)
            simp only [List.getD_eq_getElem?_getD]
            rw [List.getElem?_set_ne hne2]
            have := hg.slots i (by omega) hiP
            simpa [List.getD_eq_getElem?_getD] using this
        obtain ⟨P2, Q2, good2, hP2, hQ2, hcons⟩ :=
          ih cap k P (Q + 1) prod b1 hgood1
        refine ⟨P2, Q2, ?_, hP2, by omega, ?_⟩
        · simp only [EventBus.runOps, hrecv]
          exact good2
        · simp only [EventBus.runOps, hrecv]
          have hQ2P2 : Q2 ≤ P2 := good2.pops_le
          have hlen2 : (prod ++ (EventBus.runOps b1 ops).2.1).length = P2 :=
            good2.prod_len
          have htake : Q < ((prod ++ (EventBus.runOps b1 ops).2.1).take Q2).length := by
            rw [List.length_take]
            have hl : Q < (prod ++ (EventBus.runOps b1 ops).2.1).length := by omega
            omega
          rw [List.drop_eq_getElem_cons htake]
          have hhead : ((prod ++ (EventBus.runOps b1 ops).2.1).take Q2)[Q]
              = prod[Q] := by
            rw [List.getElem_take]
            exact List.getElem_append_left hQlen
          rw [hhead, hcons]

theorem isPowerOfTwo_two_pow (k : Nat) : isPowerOfTwo (2 ^ k) = true := by
  have hpos : (0 : Nat) < 2 ^ k := Nat.pos_pow_of_pos k (by decide)
  simp [isPowerOfTwo, Nat.and_pow_two_sub_one_eq_mod, Nat.ne_of_gt hpos]

theorem with_capacity_pow_ok (k : Nat) :
    EventBus.with_capacity (2 ^ k) =
      Except.ok
        { buffer := List.replicate (2 ^ k) none
          head := 0
          tail := 0
          mask := 2 ^ k - 1 } := by
  unfold EventBus.with_capacity
  rw [isPowerOfTwo_two_pow]
  rfl

theorem busGood_init (k : Nat) (hk : k ≤ 63) :
    BusGood (2 ^ k) k 0 0 []
      { buffer := List.replicate (2 ^ k) none
        head := 0
        tail := 0
        mask := 2 ^ k - 1 } := by
  refine ⟨rfl, hk, by simp, rfl, rfl, rfl, Nat.le_refl 0, Nat.zero_le _, rfl, ?_⟩
  intro i _ hi
  exact absurd hi (Nat.not_lt_zero i)

/-- Claim C2: for every power-of-two capacity and every interleaving of
sends and recvs, the sequence of events returned by `recv` (dropping the
`None` results) is a prefix of the sequence of events whose `send` returned
`Ok`, in order (wrap-around of the masked ring indices included), and the
two sequences are equal whenever the bus has drained (`head = tail`). -/
theorem event_bus_fifo (k : Nat) (hk : k ≤ 63) (b0 : EventBus)
    (h0 : EventBus.with_capacity (2 ^ k) = Except.ok b0) (ops : List BusOp) :
    (EventBus.runOps b0 ops).2.2 <+: (EventBus.runOps b0 ops).2.1 ∧
    ((EventBus.runOps b0 ops).1.head = (EventBus.runOps b0 ops).1.tail →
      (EventBus.runOps b0 ops).2.2 = (EventBus.runOps b0 ops).2.1) := by
  rw [with_capacity_pow_ok] at h0
  have hb0 := Except.ok.inj h0
  subst hb0
  obtain ⟨P2, Q2, good2, _, _, hcons⟩ :=
    runOps_good ops (2 ^ k) k 0 0 [] _ (busGood_init k hk)
  simp only [List.nil_append, List.drop_zero] at hcons good2
  constructor
  · rw [hcons]
    exact List.take_prefix Q2 _
  · intro hht
    have hPQ : P2 = Q2 := by
      apply counts_mod_inj good2.pops_le
      · have hw := good2.window
        have hc := busGood_cap_lt good2
        have hp := busGood_cap_pos good2
        omega
      · rw [← good2.head_eq, ← good2.tail_eq]
        exact hht
    rw [hcons, ← hPQ, ← good2.prod_len]
    exact List.take_length _

/-- Witness for C2: capacity 2, two sends then two recvs; the drained bus has
consumed exactly the produced sequence. -/
theorem event_bus_fifo_witness :
    (EventBus.runOps
        { buffer := List.replicate 2 none, head := 0, tail := 0, mask := 1 }
        [BusOp.push (NetworkEvent.new 1 [1]), BusOp.push (NetworkEvent.new 2 [2]),
          BusOp.pop, BusOp.pop]).2.2 =
      (EventBus.runOps
        { buffer := List.replicate 2 none, head := 0, tail := 0, mask := 1 }
        [BusOp.push (NetworkEvent.new 1 [1]), BusOp.push (NetworkEvent.new 2 [2]),
          BusOp.pop, BusOp.pop]).2.1 :=
  (event_bus_fifo 1 (by decide)
    { buffer := List.replicate 2 none, head := 0, tail := 0, mask := 1 }
    (by rw [with_capacity_pow_ok]; rfl)
    [BusOp.push (NetworkEvent.new 1 [1]), BusOp.push (NetworkEvent.new 2 [2]),
      BusOp.pop, BusOp.pop]).2 (by decide)

/-- Claim C3: in every state reachable by sends and recvs from a fresh
power-of-two bus, the wrapped counter difference `head - tail` stays at most
the capacity, and a `send` attempted when the difference has reached the
capacity returns `QueueFull` and leaves the state (counters and slots)
unchanged. -/
theorem event_bus_counters_bounded (k : Nat) (hk : k ≤ 63) (b0 : EventBus)
    (h0 : EventBus.with_capacity (2 ^ k) = Except.ok b0) (ops : List BusOp) :
    u64Sub (EventBus.runOps b0 ops).1.head (EventBus.runOps b0 ops).1.tail ≤ 2 ^ k ∧
    (∀ e, 2 ^ k ≤ u64Sub (EventBus.runOps b0 ops).1.head (EventBus.runOps b0 ops).1.tail →
      EventBus.send (EventBus.runOps b0 ops).1 e =
        (Except.error EventError.QueueFull, (EventBus.runOps b0 ops).1)) := by
  rw [with_capacity_pow_ok] at h0
  have hb0 := Except.ok.inj h0
  subst hb0
  obtain ⟨P2, Q2, good2, _, _, _⟩ :=
    runOps_good ops (2 ^ k) k 0 0 [] _ (busGood_init k hk)
  have hwin := good2.window
  have hclt := busGood_cap_lt good2
  have hcpos := busGood_cap_pos good2
  have hsub : u64Sub
      (EventBus.runOps
        { buffer := List.replicate (2 ^ k) none, head := 0, tail := 0,
          mask := 2 ^ k - 1 } ops).1.head
      (EventBus.runOps
        { buffer := List.replicate (2 ^ k) none, head := 0, tail := 0,
          mask := 2 ^ k - 1 } ops).1.tail
      = P2 - Q2 := by
    rw [good2.head_eq, good2.tail_eq]
    exact u64Sub_counts good2.pops_le (by omega)
  constructor
  · rw [hsub]; omega
  · intro e hfull
    rw [hsub] at hfull
    unfold EventBus.send
    rw [good2.len_eq, good2.head_eq, good2.tail_eq,
      u64Sub_counts good2.pops_le (by omega),
      if_pos (by omega)]

/-- Witness for C3: capacity 1 after one successful send; the counter gap is
at the bound and a further send is rejected without touching the state. -/
theorem event_bus_counters_bounded_witness :
    u64Sub (EventBus.runOps
        { buffer := List.replicate 1 none, head := 0, tail := 0, mask := 0 }
        [BusOp.push (NetworkEvent.new 1 [1])]).1.head
      (EventBus.runOps
        { buffer := List.replicate 1 none, head := 0, tail := 0, mask := 0 }
        [BusOp.push (NetworkEvent.new 1 [1])]).1.tail ≤ 2 ^ 0 ∧
    EventBus.send (EventBus.runOps
        { buffer := List.replicate 1 none, head := 0, tail := 0, mask := 0 }
        [BusOp.push (NetworkEvent.new 1 [1])]).1 (NetworkEvent.new 2 [2]) =
      (Except.error EventError.QueueFull,
        (EventBus.runOps
          { buffer := List.replicate 1 none, head := 0, tail := 0, mask := 0 }
          [BusOp.push (NetworkEvent.new 1 [1])]).1) := by
  have h := event_bus_counters_bounded 0 (by decide)
    { buffer := List.replicate 1 none, head := 0, tail := 0, mask := 0 }
    (by rw [with_capacity_pow_ok]; rfl) [BusOp.push (NetworkEvent.new 1 [1])]
  exact ⟨h.1, h.2 (NetworkEvent.new 2 [2]) (by decide)⟩

/-! ## MQTT parser — `vakthund-protocols/src/mqtt.rs` -/

/-- Errors of the MQTT parser. -/
inductive MqttParseError where
  | InsufficientData
  | InvalidHeader
  | RemainingLengthMalformed
  | PacketIncomplete
deriving DecidableEq, Repr

/-- Parsed MQTT packet: header byte, topic slice and payload slice. -/
structure MqttPacket where
  header : Nat
  topic : List Nat
  payload : List Nat
deriving DecidableEq, Repr

/-- Loop body of `decode_remaining_length`: `multiplier` and `value` are
`u32` variables (wrapping arithmetic), `i` counts consumed bytes.  The order
of operations matches the source: value accumulation, count increment,
overflow guard on the multiplier, continuation test, multiplier update. -/
def decodeRemainingLengthGo :
    List Nat → Nat → Nat → Nat → Except MqttParseError (Nat × Nat)
  | [], _, _, _ => Except.error MqttParseError.RemainingLengthMalformed
  | byteVal :: rest, multiplier, value, i =>
    let value := (value + (byteVal &&& 0x7F) * multiplier) % u32Mod
    let i := i + 1
    if 128 * 128 * 128 < multiplier then
      Except.error MqttParseError.RemainingLengthMalformed
    else if (byteVal &&& 0x80) == 0 then
      Except.ok (value, i)
    else
      decodeRemainingLengthGo rest ((multiplier * 128) % u32Mod) value i

/-- Method `decode_remaining_length`: starts with multiplier 1, value 0,
zero bytes consumed. -/
def MqttParser.decode_remaining_length (input : List Nat) :
    Except MqttParseError (Nat × Nat) :=
  decodeRemainingLengthGo input 1 0 0

/-- Method `MqttParser::parse`: reads the header byte, decodes the
remaining-length field from the bytes after it, checks that the whole packet
is present, then slices topic and payload (topic only for header `0x10`). -/
def MqttParser.parse (data : List Nat) : Except MqttParseError MqttPacket :=
  if data.length < 2 then Except.error MqttParseError.InsufficientData
  else
    let header := data.getD 0 0
    match MqttParser.decode_remaining_length (data.drop 1) with
    | Except.error e => Except.error e
    | Except.ok (remaining_length, length_field_size) =>
      let fixed_header_length := 1 + length_field_size
      if data.length < fixed_header_length + remaining_length then
        Except.error MqttParseError.PacketIncomplete
      else if header == 0x10 then
        if remaining_length < 4 then Except.error MqttParseError.InsufficientData
        else
          Except.ok
            { header := header
              topic := (data.take (fixed_header_length + 4)).drop fixed_header_length
              payload := (data.take (fixed_header_length + remaining_length)).drop
                (fixed_header_length + 4) }
      else
        Except.ok
          { header := header
            topic := []
            payload := (data.take (fixed_header_length + remaining_length)).drop
              fixed_header_length }

theorem go_ok_le (input : List Nat) :
    ∀ (j v : Nat), j ≤ 4 → ∀ p,
      decodeRemainingLengthGo input ((128 ^ j) % u32Mod) v j = Except.ok p →
      p.2 ≤ 4 := by
  induction input with
  | nil =>
    intro j v _ p h
    exact absurd h (by simp [decodeRemainingLengthGo])
  | cons b rest ih =>
    intro j v hj p h
    by_cases hj4 : j = 4
    · subst hj4
      rw [decodeRemainingLengthGo] at h
      rw [if_pos (by norm_num [u32Mod])] at h
      exact absurd h (by simp)
    · have hj3 : j ≤ 3 := by omega
      have hpowle : (128 : Nat) ^ j ≤ 2097152 := by
        calc (128 : Nat) ^ j ≤ 128 ^ 3 := Nat.pow_le_pow_right (by decide) hj3
        _ = 2097152 := by norm_num
      have hmodle : (128 : Nat) ^ j % u32Mod ≤ 2097152 :=
        Nat.le_trans (Nat.mod_le _ _) hpowle
      rw [decodeRemainingLengthGo] at h
      rw [if_neg (by omega)] at h
      by_cases hcont : (b &&& 0x80) == 0
      · rw [if_pos hcont] at h
        have := (Except.ok.inj h)
        have hp2 : p.2 = j + 1 := by rw [← this]
        omega
      · rw [if_neg hcont] at h
        have hmul : ((128 : Nat) ^ j % u32Mod * 128) % u32Mod
            = 128 ^ (j + 1) % u32Mod := by
          rw [pow_succ, Nat.mul_mod]
          norm_num [u32Mod]
        rw [hmul] at h
        exact ih (j + 1) _ (by omega) p h

/-- Claim C8: an MQTT packet whose remaining-length field carries the
continuation bit in each of its first four bytes is rejected with
`RemainingLengthMalformed`; and any accepted remaining-length encoding uses
at most four bytes. -/
theorem mqtt_remaining_length_bounded (data : List Nat)
    (h5 : 5 ≤ data.length)
    (hb1 : data.getD 1 0 &&& 0x80 ≠ 0) (hb2 : data.getD 2 0 &&& 0x80 ≠ 0)
    (hb3 : data.getD 3 0 &&& 0x80 ≠ 0) (hb4 : data.getD 4 0 &&& 0x80 ≠ 0) :
    MqttParser.parse data = Except.error MqttParseError.RemainingLengthMalformed ∧
    (∀ input v n, MqttParser.decode_remaining_length input = Except.ok (v, n) →
      n ≤ 4) := by
  constructor
  · match data, h5 with
    | a :: b :: c :: d :: e :: rest, _ =>
      simp only [List.getD_cons_succ, List.getD_cons_zero] at hb1 hb2 hb3 hb4
      have hbb : (b &&& 0x80 == 0) = false := by simpa using hb1
      have hcc : (c &&& 0x80 == 0) = false := by simpa using hb2
      have hdd : (d &&& 0x80 == 0) = false := by simpa using hb3
      have hee : (e &&& 0x80 == 0) = false := by simpa using hb4
      have hdec : MqttParser.decode_remaining_length (b :: c :: d :: e :: rest)
          = Except.error MqttParseError.RemainingLengthMalformed := by
        cases rest with
        | nil =>
          simp [MqttParser.decode_remaining_length, decodeRemainingLengthGo,
            u32Mod, hbb, hcc, hdd, hee]
        | cons x rest2 =>
          simp [MqttParser.decode_remaining_length, decodeRemainingLengthGo,
            u32Mod, hbb, hcc, hdd, hee]
      unfold MqttParser.parse
      rw [if_neg (by simp only [List.length_cons]; omega)]
      have hdrop : (a :: b :: c :: d :: e :: rest).drop 1 = b :: c :: d :: e :: rest := rfl
      rw [hdrop, hdec]
  · intro input v n h
    have h1 : (1 : Nat) = 128 ^ 0 % u32Mod := by norm_num [u32Mod]
    unfold MqttParser.decode_remaining_length at h
    rw [h1] at h
    exact go_ok_le input 0 0 (by omega) (v, n) h

/-- Witness for C8: the repository's own malformed-remaining-length test
vector `[0x10, 0xFF, 0xFF, 0xFF, 0xFF]`. -/
theorem mqtt_remaining_length_bounded_witness :
    MqttParser.parse [0x10, 0xFF, 0xFF, 0xFF, 0xFF]
      = Except.error MqttParseError.RemainingLengthMalformed :=
  (mqtt_remaining_length_bounded [0x10, 0xFF, 0xFF, 0xFF, 0xFF]
    (by decide) (by decide) (by decide) (by decide) (by decide)).1

/-! ## Modbus parser — `vakthund-protocols/src/modbus.rs` -/

/-- Errors of the Modbus parser. -/
inductive ModbusParseError where
  | InsufficientData
  | InvalidFunctionCode
  | MalformedPacket
deriving DecidableEq, Repr

/-- Parsed Modbus packet with the MBAP header fields and the data slice. -/
structure ModbusPacket where
  transaction_id : Nat
  protocol_id : Nat
  length : Nat
  unit_id : Nat
  function_code : Nat
  data : List Nat
deriving DecidableEq, Repr

/-- Method `ModbusParser::parse`.  `u16::from_be_bytes([hi, lo])` is
`256 * hi + lo`.  The slice expression `&data[8 .. 6 + length]` panics in
Rust when its start exceeds its end; the `none` result models that panic,
every other outcome is `some`. -/
def ModbusParser.parse (data : List Nat) :
    Option (Except ModbusParseError ModbusPacket) :=
  if data.length < 8 then
    some (Except.error ModbusParseError.InsufficientData)
  else
    let transaction_id := 256 * data.getD 0 0 + data.getD 1 0
    let protocol_id := 256 * data.getD 2 0 + data.getD 3 0
    let length := 256 * data.getD 4 0 + data.getD 5 0
    let unit_id := data.getD 6 0
    let function_code := data.getD 7 0
    if protocol_id ≠ 0 then
      some (Except.error ModbusParseError.MalformedPacket)
    else if data.length < 6 + length then
      some (Except.error ModbusParseError.InsufficientData)
    else
      let data_start := 8
      let data_end := 6 + length
      if data_start ≤ data_end then
        some (Except.ok
          { transaction_id := transaction_id
            protocol_id := protocol_id
            length := length
            unit_id := unit_id
            function_code := function_code
            data := (data.take data_end).drop data_start })
      else
        none

/-- Claim C6 (refuted by the code): on the 8-byte packet with declared
length 0 all header checks pass yet the computed data range `8 .. 6` is
inverted, so the Rust slice operation panics (modelled by `none`); on the
repository's own valid test packet the parser returns the expected packet,
so the embedding agrees with the code's tests. -/
theorem modbus_parse_panics_on_short_length :
    ModbusParser.parse [0, 1, 0, 0, 0, 0, 1, 3] = none ∧
    ModbusParser.parse [0, 1, 0, 0, 0, 6, 1, 3, 0, 0, 0, 1] =
      some (Except.ok
        { transaction_id := 1, protocol_id := 0, length := 6,
          unit_id := 1, function_code := 3, data := [0, 0, 0, 1] }) := by
  constructor
  · rfl
  · rfl

/-! ## Signature engine — `vakthund-detection/src/signatures/mod.rs` -/

/-- Engine state: the pattern list and the currently installed Aho-Corasick
automaton.  The automaton is identified by the pattern snapshot it was built
from (scanning behaviour is a function of that snapshot). -/
structure SignatureEngine where
  patterns : List String
  matcher : Option (List String)
deriving DecidableEq, Repr

/-- Constructor `SignatureEngine::new`: no patterns, no automaton. -/
def SignatureEngine.new : SignatureEngine := { patterns := [], matcher := none }

/-- Method `rebuild_matcher`, parameterised by the external
`AhoCorasickBuilder::build` call (the `aho_corasick` crate), which either
succeeds or reports a compilation error for the given pattern set.  On
success the automaton for the current snapshot is installed; on error the
previous automaton stays. -/
def SignatureEngine.rebuild_matcher (build : List String → Except String Unit)
    (eng : SignatureEngine) : Except String Unit × SignatureEngine :=
  match build eng.patterns with
  | Except.ok _ => (Except.ok (), { eng with matcher := some eng.patterns })
  | Except.error e => (Except.error e, eng)

/-- Method `pattern_add`: pushes the pattern onto the list (the write lock is
dropped), then rebuilds the automaton from the whole list. -/
def SignatureEngine.pattern_add (build : List String → Except String Unit)
    (eng : SignatureEngine) (pattern : String) :
    Except String Unit × SignatureEngine :=
  SignatureEngine.rebuild_matcher build
    { eng with patterns := eng.patterns ++ [pattern] }

/-- Overlapping multi-pattern match: every (start position, pattern index)
occurrence, as `find_overlapping_iter` reports.  Only the set of reported
indices matters here; the engine's scan output is a function of the
installed snapshot and the input. -/
def findOverlappingMatches (pats : List String) (data : List Nat) : List Nat :=
  (List.range (data.length + 1)).flatMap (fun s =>
    (List.range pats.length).filterMap (fun j =>
      if (strBytes (pats.getD j "")).isPrefixOf (data.drop s) then some j
      else none))

/-- Method `buffer_scan`: consults the installed automaton; returns the empty
list when none is installed. -/
def SignatureEngine.buffer_scan (eng : SignatureEngine) (data : List Nat) :
    List Nat :=
  match eng.matcher with
  | none => []
  | some pats => findOverlappingMatches pats data

/-- Claim C10: a failed `pattern_add` leaves the installed automaton (and
hence every `buffer_scan` result) unchanged, yet the failed pattern stays in
the pattern list, so the automaton built by the next successful
`pattern_add` includes it. -/
theorem pattern_add_failure_keeps_matcher
    (build : List String → Except String Unit) (eng : SignatureEngine)
    (p msg : String) (eng1 : SignatureEngine)
    (h : SignatureEngine.pattern_add build eng p = (Except.error msg, eng1)) :
    eng1.matcher = eng.matcher ∧
    (∀ data, eng1.buffer_scan data = eng.buffer_scan data) ∧
    eng1.patterns = eng.patterns ++ [p] ∧
    (∀ (q : String) (eng2 : SignatureEngine),
      SignatureEngine.pattern_add build eng1 q = (Except.ok (), eng2) →
      eng2.matcher = some (eng.patterns ++ [p] ++ [q]) ∧
      p ∈ eng.patterns ++ [p] ++ [q]) := by
  unfold SignatureEngine.pattern_add SignatureEngine.rebuild_matcher at h
  cases hb : build (eng.patterns ++ [p]) with
  | ok u =>
    rw [hb] at h
    exact absurd (congrArg Prod.fst h) (by simp)
  | error e =>
    rw [hb] at h
    have heng1 : eng1 = { eng with patterns := eng.patterns ++ [p] } :=
      (congrArg Prod.snd h).symm
    subst heng1
    refine ⟨rfl, fun _ => rfl, rfl, ?_⟩
    intro q eng2 h2
    unfold SignatureEngine.pattern_add SignatureEngine.rebuild_matcher at h2
    cases hb2 : build (eng.patterns ++ [p] ++ [q]) with
    | ok u2 =>
      rw [show ({ eng with patterns := eng.patterns ++ [p] } : SignatureEngine).patterns
            ++ [q] = eng.patterns ++ [p] ++ [q] from rfl, hb2] at h2
      have heng2 : eng2 =
          { patterns := eng.patterns ++ [p] ++ [q]
            matcher := some (eng.patterns ++ [p] ++ [q]) } :=
        (congrArg Prod.snd h2).symm
      subst heng2
      refine ⟨rfl, ?_⟩
      simp
    | error e2 =>
      rw [show ({ eng with patterns := eng.patterns ++ [p] } : SignatureEngine).patterns
            ++ [q] = eng.patterns ++ [p] ++ [q] from rfl, hb2] at h2
      exact absurd (congrArg Prod.fst h2) (by simp)

/-- Build model used by the C10 witness: compilation fails exactly on a
one-element pattern set. -/
def buildFailOnSingleton : List String → Except String Unit :=
  fun l => if l.length == 1 then Except.error "rebuild failed" else Except.ok ()

/-- Witness for C10: after a failed add of pattern a the matcher is still the
fresh engine's, and the next successful add builds an automaton containing a. -/
theorem pattern_add_failure_keeps_matcher_witness :
    ({ patterns := ["a"], matcher := none } : SignatureEngine).matcher
        = SignatureEngine.new.matcher ∧
    "a" ∈ SignatureEngine.new.patterns ++ ["a"] ++ ["b"] := by
  have h := pattern_add_failure_keeps_matcher buildFailOnSingleton
    SignatureEngine.new "a" "rebuild failed"
    { patterns := ["a"], matcher := none } rfl
  exact ⟨h.1, (h.2.2.2 "b"
    { patterns := ["a", "b"], matcher := some ["a", "b"] } rfl).2⟩

/-! ## Simulator configuration — `vakthund-config/src/simulator.rs` -/

/-- Chaos configuration; the `f64` fault probability is modelled as a
rational. -/
structure ChaosConfig where
  fault_probability : ℚ
deriving DecidableEq, Repr

/-- Network emulation parameters. -/
structure NetworkModelConfig where
  latency_ms : Nat
  jitter_ms : Nat
deriving DecidableEq, Repr

/-- Simulator configuration. -/
structure SimulatorConfig where
  seed : Nat
  event_count : Nat
  chaos : ChaosConfig
  network : NetworkModelConfig
deriving DecidableEq, Repr

/-- The `Default` impl of `SimulatorConfig`. -/
def SimulatorConfig.defaultConfig : SimulatorConfig :=
  { seed := 42
    event_count := 10000
    chaos := { fault_probability := 0 }
    network := { latency_ms := 0, jitter_ms := 0 } }

/-- State of a modelled `rand` RNG: a draw stream plus a cursor.  The stream
stands for the successive outputs of the concrete generator. -/
structure RngStream where
  stream : Nat → Nat
  idx : Nat

/-- One raw draw. -/
def RngStream.next (r : RngStream) : Nat × RngStream :=
  (r.stream r.idx, { r with idx := r.idx + 1 })

/-- Model of `Rng::random_range(lo..hi)` on integers (half-open range,
requires `lo < hi`): consumes one draw and returns a value in `[lo, hi)`. -/
def randomRangeHalfOpen (r : RngStream) (lo hi : Nat) : Nat × RngStream :=
  let (n, r2) := r.next
  (lo + n % (hi - lo), r2)

/-- Model of `Rng::random_range(0.0..0.5)` on `f64`: consumes one draw and
returns a rational in `[0, 1/2)` with 53-bit granularity. -/
def randomRangeF64Half (r : RngStream) : ℚ × RngStream :=
  let (n, r2) := r.next
  (((n % 2 ^ 53 : Nat) : ℚ) / 2 ^ 53 * (1 / 2), r2)

/-- Method `SimulatorConfig::generate_fuzz_config`.  The stream models
`StdRng::seed_from_u64(seed)`; the draws happen in source order:
`event_count` from `100..max(1000, max_events)`, `fault_probability` from
`0.0..0.5`, `latency_ms` from `0..1000`, `jitter_ms` from `0..200`, and a
redraw of `jitter_ms` from `0..100` when `latency_ms > 500 && jitter_ms >
100`. -/
def SimulatorConfig.generate_fuzz_config (stream : Nat → Nat) (seed : Nat)
    (max_events : Nat) : SimulatorConfig :=
  let rng0 : RngStream := { stream := stream, idx := 0 }
  let ec := randomRangeHalfOpen rng0 100 (max 1000 max_events)
  let fp := randomRangeF64Half ec.2
  let lat := randomRangeHalfOpen fp.2 0 1000
  let jit0 := randomRangeHalfOpen lat.2 0 200
  let jitter_ms :=
    if 500 < lat.1 ∧ 100 < jit0.1 then (randomRangeHalfOpen jit0.2 0 100).1
    else jit0.1
  { seed := seed
    event_count := ec.1
    chaos := { fault_probability := fp.1 }
    network := { latency_ms := lat.1, jitter_ms := jitter_ms } }

/-- Counterexample for C7: the upper range bound in the source is
`max(1000, max_events)`, not `max_events`, so with `max_events = 101` a draw
of 899 yields `event_count = 999 > 101`. -/
theorem generate_fuzz_config_exceeds_max_events :
    (SimulatorConfig.generate_fuzz_config (fun _ => 899) 0 101).event_count = 999 ∧
    ¬ (SimulatorConfig.generate_fuzz_config (fun _ => 899) 0 101).event_count ≤ 101 := by
  constructor
  · rfl
  · decide

/-- Claim C7 as the code has it: for every seed, draw stream and
`max_events`, the generated configuration has `event_count` in
`[100, max(1000, max_events))`, `fault_probability` in `[0, 1/2)`,
`latency_ms` in `[0, 1000)`, `jitter_ms` in `[0, 200)`, and whenever the
latency exceeds 500 the final jitter is at most 100 (below 100 when it was
redrawn). -/
theorem generate_fuzz_config_ranges (stream : Nat → Nat) (seed max_events : Nat) :
    100 ≤ (SimulatorConfig.generate_fuzz_config stream seed max_events).event_count ∧
    (SimulatorConfig.generate_fuzz_config stream seed max_events).event_count
      < max 1000 max_events ∧
    0 ≤ (SimulatorConfig.generate_fuzz_config stream seed max_events).chaos.fault_probability ∧
    (SimulatorConfig.generate_fuzz_config stream seed max_events).chaos.fault_probability
      < 1 / 2 ∧
    (SimulatorConfig.generate_fuzz_config stream seed max_events).network.latency_ms
      < 1000 ∧
    (SimulatorConfig.generate_fuzz_config stream seed max_events).network.jitter_ms
      < 200 ∧
    (500 < (SimulatorConfig.generate_fuzz_config stream seed max_events).network.latency_ms →
      (SimulatorConfig.generate_fuzz_config stream seed max_events).network.jitter_ms ≤ 100) ∧
    (SimulatorConfig.generate_fuzz_config stream seed max_events).seed = seed := by
  have heq : SimulatorConfig.generate_fuzz_config stream seed max_events =
      { seed := seed
        event_count := 100 + stream 0 % (max 1000 max_events - 100)
        chaos := { fault_probability :=
          ((stream 1 % 2 ^ 53 : Nat) : ℚ) / 2 ^ 53 * (1 / 2) }
        network :=
          { latency_ms := 0 + stream 2 % 1000
            jitter_ms :=
              if 500 < 0 + stream 2 % 1000 ∧ 100 < 0 + stream 3 % 200 then
                0 + stream 4 % 100
              else 0 + stream 3 % 200 } } := rfl
  rw [heq]
  dsimp only
  have hmax : (1000 : Nat) ≤ max 1000 max_events := Nat.le_max_left _ _
  have hec : stream 0 % (max 1000 max_events - 100) < max 1000 max_events - 100 :=
    Nat.mod_lt _ (by omega)
  have hfpn : ((stream 1 % 2 ^ 53 : Nat) : ℚ) < 2 ^ 53 := by
    exact_mod_cast Nat.mod_lt _ (by norm_num)
  have hfp0 : (0 : ℚ) ≤ ((stream 1 % 2 ^ 53 : Nat) : ℚ) / 2 ^ 53 * (1 / 2) := by
    positivity
  have hfp1 : ((stream 1 % 2 ^ 53 : Nat) : ℚ) / 2 ^ 53 * (1 / 2) < 1 / 2 := by
    have hdiv : ((stream 1 % 2 ^ 53 : Nat) : ℚ) / 2 ^ 53 < 1 := by
      rw [div_lt_one (by norm_num)]
      exact hfpn
    nlinarith
  have hlat : stream 2 % 1000 < 1000 := Nat.mod_lt _ (by norm_num)
  have hjit : stream 3 % 200 < 200 := Nat.mod_lt _ (by norm_num)
  have hjit2 : stream 4 % 100 < 100 := Nat.mod_lt _ (by norm_num)
  refine ⟨by omega, by omega, hfp0, hfp1, by omega, ?_, ?_, rfl⟩
  · split
    · omega
    · omega
  · intro hlat500
    by_cases hc : 500 < 0 + stream 2 % 1000 ∧ 100 < 0 + stream 3 % 200
    · rw [if_pos hc]
      omega
    · rw [if_neg hc]
      have hj : ¬ (100 < 0 + stream 3 % 200) := fun hb => hc ⟨hlat500, hb⟩
      omega

/-- Witness for C7 at a concrete stream where the latency-redraw branch is
taken. -/
theorem generate_fuzz_config_ranges_witness :
    100 ≤ (SimulatorConfig.generate_fuzz_config (fun _ => 599) 5 2000).event_count ∧
    (500 < (SimulatorConfig.generate_fuzz_config (fun _ => 599) 5 2000).network.latency_ms →
      (SimulatorConfig.generate_fuzz_config (fun _ => 599) 5 2000).network.jitter_ms ≤ 100) := by
  have h := generate_fuzz_config_ranges (fun _ => 599) 5 2000
  exact ⟨h.1, h.2.2.2.2.2.2.1⟩

/-! ## Scenario save/load — `vakthund-simulator/src/replay.rs` -/

/-- Scenario event sum type, from `replay.rs`. -/
inductive ScenarioEvent where
  | NetworkEvent (delay_ns : Nat) (event : NetworkEvent)
  | NetworkDelay (delay_ns : Nat)
  | PacketLoss (probability : ℚ)
  | FaultInjection (tag : String)
  | CustomEvent (type_name : String) (data : List Nat)
deriving DecidableEq, Repr

/-- On-disk scenario artifact.  The hex-encoded BLAKE3 `expected_hash` is
modelled by the sequence of byte chunks folded into the hasher (the digest
is a function of exactly that sequence). -/
structure Scenario where
  seed : Nat
  config : SimulatorConfig
  events : List ScenarioEvent
  expected_hash : List (List Nat)
deriving DecidableEq, Repr

/-- Model of Rust `str::parse::<u64>` on a trimmed line: an optional plus
sign followed by one or more ASCII digits, value below `2 ^ 64`. -/
def parseU64 (s : String) : Option Nat :=
  let cs :=
    match s.data with
    | '+' :: rest => rest
    | cs => cs
  if cs = [] then none
  else if cs.all Char.isDigit then
    let v := cs.foldl (fun acc c => acc * 10 + (c.toNat - 48)) 0
    if v < u64Mod then some v else none
  else none

/-- Big-endian bytes of a `u64` (`u64::to_be_bytes`). -/
def u64be (n : Nat) : List Nat :=
  [n / 2 ^ 56 % 256, n / 2 ^ 48 % 256, n / 2 ^ 40 % 256, n / 2 ^ 32 % 256,
    n / 2 ^ 24 % 256, n / 2 ^ 16 % 256, n / 2  ^ 8 % 256, n % 256]

/-- Method `Scenario::load_from_path` on the lines of the file it read: each
line whose trimmed text parses as a `u64` becomes a `NetworkEvent` with that
delay and the fixed payload, its big-endian bytes are folded into the hash,
and the function returns seed 0 and the default configuration regardless of
the file's contents. -/
def Scenario.load_from_content (lines : List String) : Scenario :=
  let ds := lines.filterMap (fun line => parseU64 line.trim)
  { seed := 0
    config := SimulatorConfig.defaultConfig
    events := ds.map (fun d =>
      ScenarioEvent.NetworkEvent d (NetworkEvent.new d (strBytes "replayed event")))
    expected_hash := ds.map u64be }

/-- Claim C4 (refuted by the code): `load_from_path` never deserializes the
YAML that `save_to_file` wrote — whatever the serializer `save` produced for
the scenario, loading it back yields seed 0 (and the default configuration),
so the round trip loses every scenario whose seed is nonzero. -/
theorem scenario_load_ignores_saved_scenario
    (save : Scenario → List String) (s : Scenario) (hseed : s.seed ≠ 0) :
    (Scenario.load_from_content (save s)).seed = 0 ∧
    Scenario.load_from_content (save s) ≠ s := by
  refine ⟨rfl, ?_⟩
  intro h
  exact hseed (by rw [← h]; rfl)

/-- Witness for C4: the repository's own test scenario seed 123 under an
arbitrary serializer. -/
theorem scenario_load_ignores_saved_scenario_witness :
    (Scenario.load_from_content ((fun _ => [])
      (Scenario.mk 123 SimulatorConfig.defaultConfig [] []))).seed = 0 ∧
    Scenario.load_from_content ((fun _ => [])
      (Scenario.mk 123 SimulatorConfig.defaultConfig [] [])) ≠
      Scenario.mk 123 SimulatorConfig.defaultConfig [] [] :=
  scenario_load_ignores_saved_scenario (fun _ => [])
    (Scenario.mk 123 SimulatorConfig.defaultConfig [] []) (by decide)

/-! ## Simulator — `vakthund-simulator/src/lib.rs` with the impairment
models of `vakthund-core/src/network/{latency,jitter,packet_loss}`. -/

/-- `FixedLatencyModel`: stores `Duration::from_millis(latency_ms)`;
durations are nanosecond counts. -/
structure FixedLatencyModel where
  latency_ns : Nat
deriving DecidableEq, Repr

/-- Constructor `FixedLatencyModel::new(latency_ms)`. -/
def FixedLatencyModel.new (latency_ms : Nat) : FixedLatencyModel :=
  { latency_ns := latency_ms * 1000000 }

/-- Method `apply_latency`: adds the fixed delay. -/
def FixedLatencyModel.apply_latency (m : FixedLatencyModel) (duration : Nat) : Nat :=
  duration + m.latency_ns

/-- `RandomJitterModel`: maximum magnitude plus its own `SmallRng`.  The
source seeds that RNG with `SmallRng::from_rng(&mut rand::rng())` — from the
thread-local OS-entropy generator, not from the simulator seed — so the draw
stream is an independent input of the run. -/
structure RandomJitterModel where
  magnitude_ms : Nat
  draws : Nat → Nat
  idx : Nat

/-- Constructor `RandomJitterModel::new(magnitude_ms)` given the entropy
stream the `rand` crate supplies. -/
def RandomJitterModel.new (magnitude_ms : Nat) (draws : Nat → Nat) :
    RandomJitterModel :=
  { magnitude_ms := magnitude_ms, draws := draws, idx := 0 }

/-- Method `apply_jitter`: draws `gen_range(0..=magnitude_ms)` milliseconds
(a value in `[0, magnitude_ms]`) and adds it to the duration. -/
def RandomJitterModel.apply_jitter (m : RandomJitterModel) (duration : Nat) :
    Nat × RandomJitterModel :=
  let jitter_ms := m.draws m.idx % (m.magnitude_ms + 1)
  (duration + jitter_ms * 1000000, { m with idx := m.idx + 1 })

/-- A packet-loss model as the stream of its successive `should_drop`
answers (`NoPacketLossModel` answers `false` forever; the probabilistic
model's answers come from its own entropy-seeded RNG). -/
structure PacketLossModelState where
  drops : Nat → Bool
  idx : Nat

/-- `NoPacketLossModel`: never drops. -/
def NoPacketLossModel : PacketLossModelState :=
  { drops := fun _ => false, idx := 0 }

/-- Method `should_drop`: consumes one answer. -/
def PacketLossModelState.should_drop (m : PacketLossModelState) :
    Bool × PacketLossModelState :=
  (m.drops m.idx, { m with idx := m.idx + 1 })

/-- The simulator state, from `lib.rs`: clock, impairment models, the BLAKE3
hasher (modelled as the chunk sequence it has absorbed), the chaos flag with
its thread-local `rand::rng()` draw stream (again an entropy input, not a
function of the seed), and the optional event bus.  The bus handle is
modelled as the list of events pushed so far: `blocking_push` retries
`try_push` until the consumer makes room, so its net effect is an append.
The arena allocator only provides storage for the event string and carries
no observable state. -/
structure Simulator where
  clock : VirtualClock
  latency_model : FixedLatencyModel
  jitter_model : RandomJitterModel
  packet_loss : PacketLossModelState
  state_hasher : List (List Nat)
  chaos_enabled : Bool
  chaos_draws : Nat → Bool
  chaos_idx : Nat
  event_bus : Option (List NetworkEvent)

/-- Constructor `Simulator::new(seed, chaos_enabled, latency_ms, jitter_ms,
event_bus)`, given the two entropy streams the `rand` crate supplies for the
jitter RNG and for the chaos coin flips. -/
def Simulator.new (seed : Nat) (chaos_enabled : Bool)
    (latency_ms jitter_ms : Nat) (event_bus : Option (List NetworkEvent))
    (jitter_draws : Nat → Nat) (chaos_draws : Nat → Bool) : Simulator :=
  { clock := VirtualClock.new seed
    latency_model := FixedLatencyModel.new latency_ms
    jitter_model := RandomJitterModel.new jitter_ms jitter_draws
    packet_loss := NoPacketLossModel
    state_hasher := []
    chaos_enabled := chaos_enabled
    chaos_draws := chaos_draws
    chaos_idx := 0
    event_bus := event_bus }

/-- Event body `"Event {id}"` as bytes. -/
def eventContent (event_id : Nat) : List Nat :=
  strBytes ("Event " ++ toString event_id)

/-- Method `Simulator::simulate_event`, in source order: form the body,
consult packet loss (on a drop fold `"DROPPED"` and return `None`), add the
fixed latency to the 100 ms base delay and the jitter to a zero duration,
advance the clock by the total, optionally inject a chaos fault into the
body (`rand::rng().random_bool(0.1)` is drawn only when chaos is enabled),
build the event at the new clock time, then either push it onto the bus or —
only when no bus is attached — fold the body into the hasher. -/
def Simulator.simulate_event (s : Simulator) (event_id : Nat) :
    Option NetworkEvent × Simulator :=
  let body := eventContent event_id
  let dropRes := s.packet_loss.should_drop
  if dropRes.1 then
    (none, { s with
        packet_loss := dropRes.2
        state_hasher := s.state_hasher ++ [strBytes "DROPPED"] })
  else
    let base_delay_ns := 100000000
    let delay := s.latency_model.apply_latency base_delay_ns
    let jitterRes := s.jitter_model.apply_jitter 0
    let total_delay := delay + jitterRes.1
    let clock2 := s.clock.advance total_delay
    let fault := s.chaos_enabled && s.chaos_draws s.chaos_idx
    let chaos_idx2 := if s.chaos_enabled then s.chaos_idx + 1 else s.chaos_idx
    let body2 := if fault then body ++ strBytes " [FAULT INJECTED]" else body
    let event := NetworkEvent.new clock2.now_ns body2
    match s.event_bus with
    | some pushed =>
      (some event, { s with
          packet_loss := dropRes.2
          jitter_model := jitterRes.2
          clock := clock2
          chaos_idx := chaos_idx2
          event_bus := some (pushed ++ [event]) })
    | none =>
      (some event, { s with
          packet_loss := dropRes.2
          jitter_model := jitterRes.2
          clock := clock2
          chaos_idx := chaos_idx2
          state_hasher := s.state_hasher ++ [body2] })

/-- Claim C1 (the code violates it): the jitter RNG is seeded from OS
entropy rather than from the simulator seed, so the entropy stream is an
input of the run.  Two runs with identical `(seed, latency_ms, jitter_ms,
chaos_enabled, event_count)` but distinct entropy draws — here the constant
streams 0 and 1, both legal `gen_range(0..=1000)` outputs — produce
different clock values, different event timestamps and different hasher
inputs after a single event. -/
theorem simulator_jitter_entropy_breaks_determinism :
    ((Simulator.new 42 false 0 1000 none (fun _ => 0)
        (fun _ => false)).simulate_event 0).2.clock.now_ns ≠
      ((Simulator.new 42 false 0 1000 none (fun _ => 1)
        (fun _ => false)).simulate_event 0).2.clock.now_ns ∧
    (((Simulator.new 42 false 0 1000 none (fun _ => 0)
        (fun _ => false)).simulate_event 0).1.map NetworkEvent.timestamp) ≠
      (((Simulator.new 42 false 0 1000 none (fun _ => 1)
        (fun _ => false)).simulate_event 0).1.map NetworkEvent.timestamp) := by
  constructor
  · decide
  · decide

/-- Counterexample for C5: the claim that `simulate_event` folds the event
body into the hasher whenever the loss model does not drop, regardless of
whether a bus is attached, is false — with a bus attached the hasher is left
untouched (and the `Simulator` holds no `ScenarioEvent` log at all). -/
theorem simulator_fold_regardless_of_bus_false :
    ¬ (∀ (s : Simulator) (event_id : Nat) (e : NetworkEvent),
        (s.simulate_event event_id).1 = some e →
        (s.simulate_event event_id).2.state_hasher
          = s.state_hasher ++ [e.payload]) := by
  intro hclaim
  have h := hclaim
    (Simulator.new 42 false 0 0 (some []) (fun _ => 0) (fun _ => false)) 0 _ rfl
  exact absurd h (by decide)

/-- Claim C5 as the code has it: when the packet-loss model does not drop,
`simulate_event` returns an event; with no bus attached the event body is
folded into the hasher and the bus stays absent, while with a bus attached
the event is pushed onto the bus and the hasher is left unchanged. -/
theorem simulate_event_hasher_only_without_bus (s : Simulator) (event_id : Nat)
    (hnodrop : s.packet_loss.drops s.packet_loss.idx = false) :
    ∃ e : NetworkEvent, (s.simulate_event event_id).1 = some e ∧
      (s.event_bus = none →
        (s.simulate_event event_id).2.state_hasher
          = s.state_hasher ++ [e.payload] ∧
        (s.simulate_event event_id).2.event_bus = none) ∧
      (∀ pushed, s.event_bus = some pushed →
        (s.simulate_event event_id).2.state_hasher = s.state_hasher ∧
        (s.simulate_event event_id).2.event_bus = some (pushed ++ [e])) := by
  cases hbus : s.event_bus with
  | none =>
    simp only [Simulator.simulate_event, PacketLossModelState.should_drop, hnodrop,
      Bool.false_eq_true, if_false, hbus]
    refine ⟨_, rfl, ?_, ?_⟩
    · intro _
      exact ⟨by simp [NetworkEvent.new], by simp⟩
    · intro pushed hp
      simp at hp
  | some pushed0 =>
    simp only [Simulator.simulate_event, PacketLossModelState.should_drop, hnodrop,
      Bool.false_eq_true, if_false, hbus]
    refine ⟨_, rfl, ?_, ?_⟩
    · intro habs
      simp at habs
    · intro pushed hp
      have hpp : pushed0 = pushed := by simpa using hp
      subst hpp
      exact ⟨by simp, by simp⟩

/-- Simulator with no bus attached, used by the C5 witness. -/
def simNoBus : Simulator :=
  Simulator.new 42 false 0 0 none (fun _ => 0) (fun _ => false)

/-- Witness for C5 at a concrete no-bus simulator. -/
theorem simulate_event_hasher_only_without_bus_witness :
    ∃ e : NetworkEvent, (simNoBus.simulate_event 0).1 = some e ∧
      (simNoBus.event_bus = none →
        (simNoBus.simulate_event 0).2.state_hasher
          = simNoBus.state_hasher ++ [e.payload] ∧
        (simNoBus.simulate_event 0).2.event_bus = none) ∧
      (∀ pushed, simNoBus.event_bus = some pushed →
        (simNoBus.simulate_event 0).2.state_hasher = simNoBus.state_hasher ∧
        (simNoBus.simulate_event 0).2.event_bus = some (pushed ++ [e])) :=
  simulate_event_hasher_only_without_bus simNoBus 0 rfl
